import Mathlib

/-!
Shallow embedding of the GHCN daily-weather aggregation core:
`src/app/ghcn_dly.py` (fixed-width record parser, season classifier,
streaming mean aggregator) and `src/app/cache.py` (content-addressed
metric cache: population protocol and dense series reader).

Conventions of the embedding:
* a text line is a `List Char`, exactly the characters Python's line
  iteration yields (a trailing newline may or may not be present; the
  concrete examples below use final lines without one);
* Python `int(...)` on a field slice is `pyInt`, returning `none` where
  Python raises `ValueError`; fallible code runs in `Except String`;
* float arithmetic is idealised as exact rational arithmetic (`ℚ`);
* Python dicts keyed by tuples are association lists with
  `dictGet`/`dictSet` mirroring `d.get(k, dflt)` / `d[k] = v`;
* the Postgres table `station_metric_cache` is a `List CacheRow`; the
  SQL statements issued by `cache.py` are modelled row-by-row
  (`countCachedRows`, `upsertRow`, the filtered select of the reader).
-/

namespace Ghcn

/-- `calendar.mdays`: day counts of a non-leap year, 1-indexed by month. -/
def mdays : List Nat := [0, 31, 28, 31, 30, 31, 30, 31, 31, 30, 31, 30, 31]

/-- `calendar.isleap(y)`: Gregorian leap rule. -/
def isleap (y : Int) : Bool := y % 4 == 0 && (y % 100 != 0 || y % 400 == 0)

/-- `calendar.monthrange(y, m)[1]` after the month check: `mdays[m]` plus a
leap day for February. Meaningful for `1 ≤ m ≤ 12`. -/
def daysInMonth (y : Int) (m : Nat) : Nat :=
  mdays.getD m 0 + (if m = 2 ∧ isleap y then 1 else 0)

/-- `calendar.monthrange(y, m)[1]`; `none` models the `IllegalMonthError`
raised when the month is outside `1..12` (the year is unrestricted). -/
def monthrange (y m : Int) : Option Nat :=
  if 1 ≤ m ∧ m ≤ 12 then some (daysInMonth y m.toNat) else none

/-- Body of a Python integer literal: digits with single underscores
allowed between digits (`digit (_? digit)*`). -/
def digitGroupOk : List Char → Bool
  | [] => false
  | [c] => c.isDigit
  | c :: '_' :: rest2 => c.isDigit && digitGroupOk rest2
  | c :: rest => c.isDigit && digitGroupOk rest

/-- Decimal value of a digit string. -/
def digitsVal (cs : List Char) : Nat :=
  cs.foldl (fun n c => 10 * n + (c.toNat - '0'.toNat)) 0

/-- Python `int(s)` on a field slice: strip surrounding whitespace, then an
optional sign and a digit group; `none` models the `ValueError` Python
raises on a malformed (non-numeric) field. -/
def pyInt (cs : List Char) : Option Int :=
  let s := ((cs.dropWhile Char.isWhitespace).reverse.dropWhile Char.isWhitespace).reverse
  match s with
  | '-' :: body =>
    if digitGroupOk body then some (-(digitsVal (body.filter (fun c => c != '_')) : Int)) else none
  | '+' :: body =>
    if digitGroupOk body then some ((digitsVal (body.filter (fun c => c != '_')) : Int)) else none
  | body =>
    if digitGroupOk body then some ((digitsVal (body.filter (fun c => c != '_')) : Int)) else none

/-- Python slice `line[a:b]` (for `a ≤ b`), clamped at the line length. -/
def pySlice (line : List Char) (a b : Nat) : List Char := (line.take b).drop a

/-- Python index `line[i]`; every use below is guarded so that `i` is in
range, the default is never consulted. -/
def pyIndex (line : List Char) (i : Nat) : Char := line.getD i ' '

/-- The four season names produced by `_season_key`. -/
inductive Season where
  | spring
  | summer
  | autumn
  | winter
deriving DecidableEq, Repr

/-- The season's name as it appears inside metric keys. -/
def seasonName : Season → String
  | .spring => "spring"
  | .summer => "summer"
  | .autumn => "autumn"
  | .winter => "winter"

/-- `_season_key(year, month)`: bucket year and season; `none` for a month
outside `1..12`. December belongs to the NEXT year's winter bucket. -/
def seasonKey (year month : Int) : Option (Int × Season) :=
  if month = 3 ∨ month = 4 ∨ month = 5 then some (year, .spring)
  else if month = 6 ∨ month = 7 ∨ month = 8 then some (year, .summer)
  else if month = 9 ∨ month = 10 ∨ month = 11 then some (year, .autumn)
  else if month = 12 then some (year + 1, .winter)
  else if month = 1 ∨ month = 2 then some (year, .winter)
  else none

/-- `_expected_days_year(year)`. -/
def expectedDaysYear (y : Int) : Nat := if isleap y then 366 else 365

/-- `_expected_days_season(year, season)`: three months zipped with their
base years; winter reaches back to December of the previous year. -/
def expectedDaysSeason (year : Int) (s : Season) : Nat :=
  let months : List Nat :=
    match s with
    | .spring => [3, 4, 5]
    | .summer => [6, 7, 8]
    | .autumn => [9, 10, 11]
    | .winter => [12, 1, 2]
  let base_years : List Int :=
    match s with
    | .winter => [year - 1, year, year]
    | _ => [year, year, year]
  (base_years.zip months).foldl (fun total ym => total + daysInMonth ym.1 ym.2) 0

/-- The dataclass `MeanPoint` of `ghcn_dly.py`. -/
structure MeanPoint where
  year : Int
  value_c : Option ℚ
  present_days : Nat
  expected_days : Nat
deriving DecidableEq, Repr

/-- `d.get(k, dflt)` on an association list. -/
def dictGet {α β : Type} [DecidableEq α] (d : List (α × β)) (k : α) (dflt : β) : β :=
  match d.find? (fun p => decide (p.1 = k)) with
  | some p => p.2
  | none => dflt

/-- `d[k] = v` on an association list: replace in place, or append. -/
def dictSet {α β : Type} [DecidableEq α] (d : List (α × β)) (k : α) (v : β) : List (α × β) :=
  if d.any (fun p => decide (p.1 = k)) then
    d.map (fun p => if p.1 = k then (k, v) else p)
  else d ++ [(k, v)]

/-- The four running accumulators of `compute_means` (lines 129-132). -/
structure AccState where
  yearly_sum : List ((String × Int) × ℚ)
  yearly_count : List ((String × Int) × Nat)
  seasonal_sum : List ((String × Int × Season) × ℚ)
  seasonal_count : List ((String × Int × Season) × Nat)
deriving Repr

/-- All accumulators start empty. -/
def initState : AccState := ⟨[], [], [], []⟩

/-- Lines 163-175 of `compute_means`: fold one valid day's value into the
yearly accumulators (only for `start_year ≤ year ≤ end_year`) and the
seasonal accumulators (only for a bucket year inside the same range). -/
def applySample (sy ey : Int) (element : String) (year : Int)
    (season : Option (Int × Season)) (value_c : ℚ) (st : AccState) : AccState :=
  let st1 :=
    if sy ≤ year ∧ year ≤ ey then
      { st with
        yearly_sum := dictSet st.yearly_sum (element, year)
          (dictGet st.yearly_sum (element, year) 0 + value_c)
        yearly_count := dictSet st.yearly_count (element, year)
          (dictGet st.yearly_count (element, year) 0 + 1) }
    else st
  match season with
  | none => st1
  | some (season_year, season_name) =>
    if sy ≤ season_year ∧ season_year ≤ ey then
      { st1 with
        seasonal_sum := dictSet st1.seasonal_sum (element, season_year, season_name)
          (dictGet st1.seasonal_sum (element, season_year, season_name) 0 + value_c)
        seasonal_count := dictSet st1.seasonal_count (element, season_year, season_name)
          (dictGet st1.seasonal_count (element, season_year, season_name) 0 + 1) }
    else st1

/-- The day loop of `compute_means` (lines 148-175), iterating over the days
list `range(1, 32)`.  A slot whose byte range exceeds the line length stops
the scan (`break`).  The raw value is parsed first (`int(...)` may raise),
then the sentinel/quality-flag test, then the days-in-month guard, whose
`IllegalMonthError` is caught and skips the day (`continue`). -/
def procDays (sy ey : Int) (element : String) (year month : Int)
    (season : Option (Int × Season)) (line : List Char) :
    List Nat → AccState → Except String AccState
  | [], st => .ok st
  | day :: rest, st =>
    let base := 21 + (day - 1) * 8
    if base + 8 > line.length then .ok st
    else
      match pyInt (pySlice line base (base + 5)) with
      | none => .error "invalid literal for int() with base 10"
      | some raw =>
        let qflag := pyIndex line (base + 6)
        if raw = -9999 ∨ qflag ≠ ' ' then
          procDays sy ey element year month season line rest st
        else
          match monthrange year month with
          | none => procDays sy ey element year month season line rest st
          | some dim =>
            if dim < day then
              procDays sy ey element year month season line rest st
            else
              procDays sy ey element year month season line rest
                (applySample sy ey element year season ((raw : ℚ) / 10) st)

/-- One iteration of the line loop of `compute_means` (lines 135-175):
short lines are skipped, year and month are parsed (and may raise) BEFORE
the element filter, then the element filter, then the widened year window
`[start_year - 1, end_year]`, then the day loop. -/
def processLine (sy ey : Int) (elements : List String)
    (st : AccState) (line : List Char) : Except String AccState :=
  if line.length < 21 then .ok st
  else
    match pyInt (pySlice line 11 15) with
    | none => .error "invalid literal for int() with base 10"
    | some year =>
      match pyInt (pySlice line 15 17) with
      | none => .error "invalid literal for int() with base 10"
      | some month =>
        let element : String := String.mk (pySlice line 17 21)
        if element ∉ elements then .ok st
        else if year < sy - 1 ∨ ey < year then .ok st
        else procDays sy ey element year month (seasonKey year month) line (List.range' 1 31) st

/-- `range(start_year, end_year + 1)` as a list of years. -/
def yearsList (sy ey : Int) : List Int :=
  (List.range (ey + 1 - sy).toNat).map (fun i : Nat => sy + (i : Int))

/-- The yearly output series of one element (lines 181-187). -/
def buildYearPoints (st : AccState) (sy ey : Int) (element : String) : List MeanPoint :=
  (yearsList sy ey).map (fun y =>
    let cnt := dictGet st.yearly_count (element, y) 0
    { year := y
      value_c := if cnt ≠ 0 then some (dictGet st.yearly_sum (element, y) 0 / (cnt : ℚ)) else none
      present_days := cnt
      expected_days := expectedDaysYear y })

/-- The seasonal output series of one element and season (lines 189-198). -/
def buildSeasonPoints (st : AccState) (sy ey : Int) (element : String) (season : Season) :
    List MeanPoint :=
  (yearsList sy ey).map (fun y =>
    let cnt := dictGet st.seasonal_count (element, y, season) 0
    { year := y
      value_c := if cnt ≠ 0 then some (dictGet st.seasonal_sum (element, y, season) 0 / (cnt : ℚ)) else none
      present_days := cnt
      expected_days := expectedDaysSeason y season })

/-- Lines 177-198: assemble the output dict, keyed `{el}_year` and
`{el}_{season}` for each requested element. -/
def buildOut (st : AccState) (sy ey : Int) (elements : List String) :
    List (String × List MeanPoint) :=
  elements.foldl (fun out element =>
    let el := element.toLower
    let out1 := dictSet out (el ++ "_year") (buildYearPoints st sy ey element)
    [Season.spring, Season.summer, Season.autumn, Season.winter].foldl
      (fun acc season =>
        dictSet acc (el ++ "_" ++ seasonName season) (buildSeasonPoints st sy ey element season))
      out1) []

/-- `compute_means(dly_path, start_year=sy, end_year=ey, elements=...)`:
stream every line through the accumulators, then emit the ten series.  Any
`ValueError` raised while parsing a line aborts the whole run. -/
def compute_means (fileLines : List (List Char)) (sy ey : Int) (elements : List String) :
    Except String (List (String × List MeanPoint)) :=
  match fileLines.foldlM (processLine sy ey elements) initState with
  | .error e => .error e
  | .ok st => .ok (buildOut st sy ey elements)

/-- `ALL_METRICS` of `cache.py`. -/
def ALL_METRICS : List String :=
  ["tmin_year", "tmax_year",
   "tmin_spring", "tmax_spring",
   "tmin_summer", "tmax_summer",
   "tmin_autumn", "tmax_autumn",
   "tmin_winter", "tmax_winter"]

/-- One row of the `station_metric_cache` table (primary key
`(station_id, metric, year)`; the `computed_at` timestamp is outside the
model). -/
structure CacheRow where
  station_id : String
  metric : String
  year : Int
  sha256 : String
  value_c : Option ℚ
  present_days : Nat
  expected_days : Nat
deriving DecidableEq, Repr

/-- The fast-path / recheck count of `ensure_cached_metrics`:
`SELECT count(*) ... WHERE station_id=%s AND sha256=%s AND year BETWEEN %s
AND %s` (note: no metric filter). -/
def countCachedRows (db : List CacheRow) (station sha : String) (sy ey : Int) : Nat :=
  (db.filter (fun r =>
    r.station_id == station && r.sha256 == sha &&
      decide (sy ≤ r.year) && decide (r.year ≤ ey))).length

/-- Whether a row occupies the table's primary-key slot
`(station_id, metric, year)`. -/
def rowKeyMatches (r : CacheRow) (station metric : String) (year : Int) : Bool :=
  r.station_id == station && r.metric == metric && r.year == year

/-- `INSERT ... ON CONFLICT (station_id, metric, year) DO UPDATE`: replace
the row in the occupied key slot, else append a fresh row. -/
def upsertRow (db : List CacheRow) (new : CacheRow) : List CacheRow :=
  if db.any (fun r => rowKeyMatches r new.station_id new.metric new.year) then
    db.map (fun r => if rowKeyMatches r new.station_id new.metric new.year then new else r)
  else db ++ [new]

/-- The row tuple bound by the `INSERT` of `ensure_cached_metrics`
(lines 81-89): one produced `MeanPoint` under the run's content hash. -/
def pointRow (station sha metric : String) (p : MeanPoint) : CacheRow :=
  { station_id := station, metric := metric, year := p.year, sha256 := sha,
    value_c := p.value_c, present_days := p.present_days,
    expected_days := p.expected_days }

/-- The commit loop of `ensure_cached_metrics` (lines 65-90): upsert every
produced `MeanPoint` of every metric under the run's content hash. -/
def commitSeries (db : List CacheRow) (station sha : String)
    (series : List (String × List MeanPoint)) : List CacheRow :=
  ALL_METRICS.foldl (fun acc metric =>
    (dictGet series metric []).foldl (fun acc2 p => upsertRow acc2 (pointRow station sha metric p))
      acc)
    db

/-- Observable outcome of one `ensure_cached_metrics` call: the table
afterwards, whether the aggregation pass ran, whether the station-scoped
advisory lock was taken, and the error, if the run raised (in which case
the transaction rolled back and the table is unchanged). -/
structure EnsureResult where
  db : List CacheRow
  computed : Bool
  tookLock : Bool
  err : Option String
deriving Repr

/-- `ensure_cached_metrics(station_id=..., sha256=..., dly_path=...,
start_year=sy, end_year=ey)`, executed without interference from other
writers (the concurrent protocol itself is outside this model): fast-path
count, advisory lock, recheck under the lock, compute, commit.  The
rows-per-range threshold is `(end_year - start_year + 1) * len(ALL_METRICS)`. -/
def ensure_cached_metrics (db : List CacheRow) (station sha : String)
    (fileLines : List (List Char)) (sy ey : Int) : EnsureResult :=
  let expected_rows : Int := (ey - sy + 1) * (ALL_METRICS.length : Int)
  if expected_rows ≤ (countCachedRows db station sha sy ey : Int) then
    { db := db, computed := false, tookLock := false, err := none }
  else if expected_rows ≤ (countCachedRows db station sha sy ey : Int) then
    { db := db, computed := false, tookLock := true, err := none }
  else
    match compute_means fileLines sy ey ["TMIN", "TMAX"] with
    | .error e => { db := db, computed := true, tookLock := true, err := some e }
    | .ok series =>
      { db := commitSeries db station sha series, computed := true,
        tookLock := true, err := none }

/-- The select of `load_cached_series`: rows of this station, under this
hash, inside the year range, with a requested metric. -/
def loadSelect (db : List CacheRow) (station sha : String) (sy ey : Int)
    (metrics : List String) : List CacheRow :=
  db.filter (fun r =>
    r.station_id == station && r.sha256 == sha &&
      decide (sy ≤ r.year) && decide (r.year ≤ ey) && metrics.contains r.metric)

/-- The `by_metric` dict of `load_cached_series`, filled row by row
(a later row overwrites an earlier one in the same `(metric, year)` slot;
the table's primary key makes that case impossible in practice). -/
def byMetricLookup (rows : List CacheRow) (metric : String) (y : Int) : Option CacheRow :=
  rows.foldl (fun acc r => if r.metric == metric && r.year == y then some r else acc) none

/-- One output entry of `load_cached_series`. -/
structure SeriesOut where
  key : String
  sha256 : String
  points : List MeanPoint
deriving DecidableEq, Repr

/-- `by_metric[metric].get(y, placeholder)` of `load_cached_series`:
the cached row's values where one exists, otherwise the placeholder
`value_c=None, present_days=0, expected_days=0`. -/
def loadPoint (rows : List CacheRow) (metric : String) (y : Int) : MeanPoint :=
  match byMetricLookup rows metric y with
  | some r =>
    { year := r.year, value_c := r.value_c, present_days := r.present_days,
      expected_days := r.expected_days }
  | none => { year := y, value_c := none, present_days := 0, expected_days := 0 }

/-- `load_cached_series(...)`: for each requested metric, one point per
year of `range(start_year, end_year + 1)`. -/
def load_cached_series (db : List CacheRow) (station sha : String) (sy ey : Int)
    (metrics : List String) : List SeriesOut :=
  let rows := loadSelect db station sha sy ey metrics
  metrics.map (fun metric =>
    { key := metric, sha256 := sha,
      points := (yearsList sy ey).map (loadPoint rows metric) })

/-- The cached rows that can serve metric `metric`, year `y` of a read:
the reader's select narrowed to one `(metric, year)` slot. -/
def matchingRows (db : List CacheRow) (station sha : String) (sy ey : Int)
    (metrics : List String) (metric : String) (y : Int) : List CacheRow :=
  (loadSelect db station sha sy ey metrics).filter (fun r => r.metric == metric && r.year == y)

/-- A cache row serving `(station, metric, y)` under content hash `sha`. -/
def goodRow (station sha metric : String) (y : Int) (r : CacheRow) : Prop :=
  r.station_id = station ∧ r.sha256 = sha ∧ r.metric = metric ∧ r.year = y

/-! Concrete input lines used by the witnesses and counterexamples below.
A `.dly` line is an 11-char station id, a 4-digit year, a 2-digit month, a
4-char element code, then 8-char day groups (5-char value, 3 flag bytes,
the middle one the quality flag). -/

/-- One TMAX month: days `10.0`, `20.0`, `-9999` (missing sentinel) and
`50.0` carrying quality flag `X`. -/
def exampleLineC1 : List Char :=
  ("AB000000001" ++ "2000" ++ "01" ++ "TMAX" ++
    "  100   " ++ "  200   " ++ "-9999   " ++ "  500 X ").data

/-- A valid December line of year 2000 with a single `10.0` TMAX day. -/
def decLineC4 : List Char :=
  ("AB000000001" ++ "2000" ++ "12" ++ "TMAX" ++ "  100   ").data

/-- A line with the numerically illegal month `13` and a well-formed value. -/
def badMonthLine : List Char :=
  ("AB000000001" ++ "2000" ++ "13" ++ "TMAX" ++ "  100   ").data

/-- A requested TMAX line whose year field `2Y00` is not numeric. -/
def badYearTmaxLine : List Char :=
  ("AB000000001" ++ "2Y00" ++ "01" ++ "TMAX" ++ "  100   ").data

/-- A line whose year field is not numeric AND whose element `XXXX` is not
a requested element. -/
def badYearLine : List Char :=
  ("AB000000001" ++ "2X00" ++ "01" ++ "XXXX" ++ "  100   ").data

/-- A line with a malformed day-value field `  1X0` whose element `PRCP`
is not a requested element. -/
def garbageDayLine : List Char :=
  ("AB000000001" ++ "2000" ++ "01" ++ "PRCP" ++ "  1X0   ").data

/-! ## Theorems -/

/-- C2: for every year Y the season classifier maps months 3-5 of Y to
(Y, spring), months 6-8 to (Y, summer), months 9-11 to (Y, autumn),
December to (Y+1, winter) — the next year's winter bucket — and
January/February to (Y, winter), the same year's winter bucket. -/
theorem season_classifier_table (y : Int) :
    seasonKey y 3 = some (y, .spring) ∧
    seasonKey y 4 = some (y, .spring) ∧
    seasonKey y 5 = some (y, .spring) ∧
    seasonKey y 6 = some (y, .summer) ∧
    seasonKey y 7 = some (y, .summer) ∧
    seasonKey y 8 = some (y, .summer) ∧
    seasonKey y 9 = some (y, .autumn) ∧
    seasonKey y 10 = some (y, .autumn) ∧
    seasonKey y 11 = some (y, .autumn) ∧
    seasonKey y 12 = some (y + 1, .winter) ∧
    seasonKey y 1 = some (y, .winter) ∧
    seasonKey y 2 = some (y, .winter) := by
  refine ⟨?_, ?_, ?_, ?_, ?_, ?_, ?_, ?_, ?_, ?_, ?_, ?_⟩ <;> norm_num [seasonKey]

/-- C3: the winter bucket of year Y expects
days(Dec, Y-1) + days(Jan, Y) + days(Feb, Y) — December counted from the
previous calendar year — while spring, summer and autumn sum the days of
their three months of Y itself; for Y = 2024 the winter denominator is
31 + 31 + 29 = 91. -/
theorem winter_expected_days_cross_year (y : Int) :
    (expectedDaysSeason y .winter =
      daysInMonth (y - 1) 12 + daysInMonth y 1 + daysInMonth y 2) ∧
    (expectedDaysSeason y .spring =
      daysInMonth y 3 + daysInMonth y 4 + daysInMonth y 5) ∧
    (expectedDaysSeason y .summer =
      daysInMonth y 6 + daysInMonth y 7 + daysInMonth y 8) ∧
    (expectedDaysSeason y .autumn =
      daysInMonth y 9 + daysInMonth y 10 + daysInMonth y 11) ∧
    expectedDaysSeason 2024 .winter = 91 := by
  refine ⟨?_, ?_, ?_, ?_, ?_⟩
  · simp [expectedDaysSeason]
  · simp [expectedDaysSeason]
  · simp [expectedDaysSeason]
  · simp [expectedDaysSeason]
  · with_unfolding_all rfl

/-- C1: a day-slot whose field is in range and parses to `raw` is excluded
from aggregation exactly when `raw = -9999`, or the quality-flag byte is
non-blank, or the day number exceeds the days-in-month of the (valid)
month; an included day contributes `raw / 10`.  Concretely, a TMAX month
`10.0, 20.0, -9999 (sentinel), 50.0 (flag X)` yields a mean point with
`present_days = 2` and `value_c = 15.0`. -/
theorem day_slot_exclusion_and_mean :
    (∀ (sy ey : Int) (element : String) (year month : Int)
        (season : Option (Int × Season)) (line : List Char) (day : Nat)
        (rest : List Nat) (st : AccState) (raw : Int),
      1 ≤ month → month ≤ 12 →
      21 + (day - 1) * 8 + 8 ≤ line.length →
      pyInt (pySlice line (21 + (day - 1) * 8) (21 + (day - 1) * 8 + 5)) = some raw →
      procDays sy ey element year month season line (day :: rest) st =
        if raw = -9999 ∨ pyIndex line (21 + (day - 1) * 8 + 6) ≠ ' '
            ∨ daysInMonth year month.toNat < day then
          procDays sy ey element year month season line rest st
        else
          procDays sy ey element year month season line rest
            (applySample sy ey element year season ((raw : ℚ) / 10) st)) ∧
    compute_means [exampleLineC1] 2000 2000 ["TMAX"] =
      .ok [("tmax_year", [⟨2000, some 15, 2, 366⟩]),
           ("tmax_spring", [⟨2000, none, 0, 92⟩]),
           ("tmax_summer", [⟨2000, none, 0, 92⟩]),
           ("tmax_autumn", [⟨2000, none, 0, 91⟩]),
           ("tmax_winter", [⟨2000, some 15, 2, 91⟩])] := by
  constructor
  · intro sy ey element year month season line day rest st raw hm1 hm2 hlen hraw
    have hmr : monthrange year month = some (daysInMonth year month.toNat) := by
      unfold monthrange
      rw [if_pos ⟨hm1, hm2⟩]
    have hnb : ¬ (21 + (day - 1) * 8 + 8 > line.length) := by omega
    simp only [procDays, if_neg hnb, hraw, hmr]
    by_cases h1 : raw = -9999 ∨ pyIndex line (21 + (day - 1) * 8 + 6) ≠ ' '
    · rw [if_pos h1, if_pos (by tauto)]
    · rw [if_neg h1]
      by_cases h2 : daysInMonth year month.toNat < day
      · rw [if_pos h2, if_pos (by tauto)]
      · rw [if_neg h2, if_neg (by tauto)]
  · with_unfolding_all rfl

/-- C1 witness: the `-9999` sentinel slot (day 3) of the example line is
excluded — the day loop steps past it without touching the accumulators. -/
theorem day_slot_exclusion_and_mean_witness :
    procDays 2000 2000 "TMAX" 2000 1 (some (2000, Season.winter)) exampleLineC1
        (3 :: [4]) initState =
      procDays 2000 2000 "TMAX" 2000 1 (some (2000, Season.winter)) exampleLineC1
        [4] initState := by
  have h := day_slot_exclusion_and_mean.1 2000 2000 "TMAX" 2000 1
      (some (2000, Season.winter)) exampleLineC1 3 [4] initState (-9999)
      (by norm_num) (by norm_num)
      (of_decide_eq_true (by with_unfolding_all rfl))
      (by with_unfolding_all rfl)
  rw [h, if_pos (Or.inl rfl)]

/-- C4: the line scan keeps exactly the widened window
[start_year - 1, end_year] — a parsed line whose raw year falls outside it
is dropped, one inside it (with a requested element) enters the day loop —
while a valid sample only reaches the yearly accumulators when its year
lies in [start_year, end_year] and the seasonal accumulators when its
bucket year does; concretely, a December line of year start_year - 1
contributes exactly one day to start_year's winter metric and to nothing
else. -/
theorem scan_window_and_buckets :
    (∀ (sy ey : Int) (elements : List String) (st : AccState) (line : List Char)
        (year month : Int),
      ¬ line.length < 21 →
      pyInt (pySlice line 11 15) = some year →
      pyInt (pySlice line 15 17) = some month →
      year < sy - 1 ∨ ey < year →
      processLine sy ey elements st line = .ok st) ∧
    (∀ (sy ey : Int) (elements : List String) (st : AccState) (line : List Char)
        (year month : Int),
      ¬ line.length < 21 →
      pyInt (pySlice line 11 15) = some year →
      pyInt (pySlice line 15 17) = some month →
      String.mk (pySlice line 17 21) ∈ elements →
      sy - 1 ≤ year → year ≤ ey →
      processLine sy ey elements st line =
        procDays sy ey (String.mk (pySlice line 17 21)) year month
          (seasonKey year month) line (List.range' 1 31) st) ∧
    (∀ (sy ey : Int) (element : String) (year : Int) (season : Option (Int × Season))
        (v : ℚ) (st : AccState),
      year < sy ∨ ey < year →
      (applySample sy ey element year season v st).yearly_sum = st.yearly_sum ∧
      (applySample sy ey element year season v st).yearly_count = st.yearly_count) ∧
    (∀ (sy ey : Int) (element : String) (year byear : Int) (sn : Season)
        (v : ℚ) (st : AccState),
      byear < sy ∨ ey < byear →
      (applySample sy ey element year (some (byear, sn)) v st).seasonal_sum =
        st.seasonal_sum ∧
      (applySample sy ey element year (some (byear, sn)) v st).seasonal_count =
        st.seasonal_count) ∧
    compute_means [decLineC4] 2001 2001 ["TMIN", "TMAX"] =
      .ok [("tmin_year", [⟨2001, none, 0, 365⟩]),
           ("tmin_spring", [⟨2001, none, 0, 92⟩]),
           ("tmin_summer", [⟨2001, none, 0, 92⟩]),
           ("tmin_autumn", [⟨2001, none, 0, 91⟩]),
           ("tmin_winter", [⟨2001, none, 0, 90⟩]),
           ("tmax_year", [⟨2001, none, 0, 365⟩]),
           ("tmax_spring", [⟨2001, none, 0, 92⟩]),
           ("tmax_summer", [⟨2001, none, 0, 92⟩]),
           ("tmax_autumn", [⟨2001, none, 0, 91⟩]),
           ("tmax_winter", [⟨2001, some 10, 1, 90⟩])] := by
  refine ⟨?_, ?_, ?_, ?_, ?_⟩
  · intro sy ey elements st line year month hlen hy hm hw
    simp only [processLine, if_neg hlen, hy, hm]
    by_cases he : String.mk (pySlice line 17 21) ∈ elements
    · rw [if_neg (fun hn => hn he), if_pos hw]
    · rw [if_pos he]
  · intro sy ey elements st line year month hlen hy hm he hw1 hw2
    simp only [processLine, if_neg hlen, hy, hm]
    rw [if_neg (fun hn => hn he), if_neg (by omega)]
  · intro sy ey element year season v st hw
    have hcond : ¬ (sy ≤ year ∧ year ≤ ey) := by omega
    cases season with
    | none => simp [applySample, hcond]
    | some p =>
      obtain ⟨byear, sn⟩ := p
      by_cases h2 : sy ≤ byear ∧ byear ≤ ey <;> simp [applySample, hcond, h2]
  · intro sy ey element year byear sn v st hw
    have hcond : ¬ (sy ≤ byear ∧ byear ≤ ey) := by omega
    by_cases h1 : sy ≤ year ∧ year ≤ ey <;> simp [applySample, hcond, h1]
  · with_unfolding_all rfl

/-- C4 witness: the December-2000 line is dropped entirely when the window
is [2002, 2005] (its raw year 2000 is below start_year - 1). -/
theorem scan_window_and_buckets_witness :
    processLine 2002 2005 ["TMAX"] initState decLineC4 = .ok initState :=
  scan_window_and_buckets.1 2002 2005 ["TMAX"] initState decLineC4 2000 12
    (of_decide_eq_true (by with_unfolding_all rfl))
    (by with_unfolding_all rfl)
    (by with_unfolding_all rfl)
    (by norm_num)

/-- Once the running fold of `compute_means` reaches a line on which
`processLine` raises, the whole run aborts with that error, whatever
follows. -/
theorem foldlM_abort {σ α : Type} (f : σ → α → Except String σ)
    (bad : α) (rest : List α) (e : String) :
    ∀ (pre : List α) (st0 st : σ), List.foldlM f st0 pre = .ok st →
      f st bad = .error e →
      List.foldlM f st0 (pre ++ bad :: rest) = .error e := by
  intro pre
  induction pre with
  | nil =>
    intro st0 st h0 hbad
    have hst : st0 = st := by
      have := h0
      rw [List.foldlM_nil] at this
      exact Except.ok.inj this
    subst hst
    rw [List.nil_append, List.foldlM_cons, hbad]
    rfl
  | cons a pre ih =>
    intro st0 st h0 hbad
    rw [List.foldlM_cons] at h0
    cases ha : f st0 a with
    | error e2 =>
      rw [ha] at h0
      exact absurd h0 (fun hcontra => Except.noConfusion hcontra)
    | ok st1 =>
      rw [ha] at h0
      have h0' : List.foldlM f st1 pre = .ok st := h0
      rw [List.cons_append, List.foldlM_cons, ha]
      exact ih st1 st h0' hbad

/-- C7 counterexample: a line whose month field holds the numerically
illegal value 13 does NOT abort the file — `compute_means` returns
normally (the `IllegalMonthError` from the days-in-month lookup is caught
and every day of the line is skipped), yielding zero-count points. -/
theorem illegal_month_does_not_abort :
    compute_means [badMonthLine] 2000 2000 ["TMAX"] =
      .ok [("tmax_year", [⟨2000, none, 0, 366⟩]),
           ("tmax_spring", [⟨2000, none, 0, 92⟩]),
           ("tmax_summer", [⟨2000, none, 0, 92⟩]),
           ("tmax_autumn", [⟨2000, none, 0, 91⟩]),
           ("tmax_winter", [⟨2000, none, 0, 91⟩])] := by
  with_unfolding_all rfl

/-- C7 (amended): parsing aborts the entire file on the first malformed
NON-NUMERIC field — a non-numeric year, month, or day-value field makes
`compute_means` raise and produce no result — but an illegal numeric month
value (such as 13) does not abort: its days-in-month error is caught, the
day-slots are skipped, and the line simply contributes nothing. -/
theorem parse_abort_on_malformed_field :
    (∀ (sy ey : Int) (elements : List String) (st : AccState) (line : List Char),
      ¬ line.length < 21 →
      pyInt (pySlice line 11 15) = none →
      processLine sy ey elements st line =
        .error "invalid literal for int() with base 10") ∧
    (∀ (sy ey : Int) (elements : List String) (st : AccState) (line : List Char)
        (year : Int),
      ¬ line.length < 21 →
      pyInt (pySlice line 11 15) = some year →
      pyInt (pySlice line 15 17) = none →
      processLine sy ey elements st line =
        .error "invalid literal for int() with base 10") ∧
    (∀ (sy ey : Int) (element : String) (year month : Int)
        (season : Option (Int × Season)) (line : List Char) (day : Nat)
        (rest : List Nat) (st : AccState),
      ¬ (21 + (day - 1) * 8 + 8 > line.length) →
      pyInt (pySlice line (21 + (day - 1) * 8) (21 + (day - 1) * 8 + 5)) = none →
      procDays sy ey element year month season line (day :: rest) st =
        .error "invalid literal for int() with base 10") ∧
    (∀ (sy ey : Int) (elements : List String) (pre : List (List Char))
        (bad : List Char) (rest : List (List Char)) (st : AccState) (e : String),
      List.foldlM (processLine sy ey elements) initState pre = .ok st →
      processLine sy ey elements st bad = .error e →
      compute_means (pre ++ bad :: rest) sy ey elements = .error e) ∧
    compute_means [badMonthLine] 2000 2000 ["TMAX"] =
      .ok [("tmax_year", [⟨2000, none, 0, 366⟩]),
           ("tmax_spring", [⟨2000, none, 0, 92⟩]),
           ("tmax_summer", [⟨2000, none, 0, 92⟩]),
           ("tmax_autumn", [⟨2000, none, 0, 91⟩]),
           ("tmax_winter", [⟨2000, none, 0, 91⟩])] := by
  refine ⟨?_, ?_, ?_, ?_, ?_⟩
  · intro sy ey elements st line hlen hnone
    simp only [processLine, if_neg hlen, hnone]
  · intro sy ey elements st line year hlen hy hnone
    simp only [processLine, if_neg hlen, hy, hnone]
  · intro sy ey element year month season line day rest st hlen hnone
    simp only [procDays, if_neg hlen, hnone]
  · intro sy ey elements pre bad rest st e hpre hbad
    unfold compute_means
    rw [foldlM_abort (processLine sy ey elements) bad rest e pre initState st hpre hbad]
  · with_unfolding_all rfl

/-- C7 witness: a file whose only line has the non-numeric year `2Y00`
aborts with the int() error and produces no series at all. -/
theorem parse_abort_on_malformed_field_witness :
    compute_means ([] ++ badYearTmaxLine :: []) 2000 2000 ["TMAX"] =
      .error "invalid literal for int() with base 10" :=
  parse_abort_on_malformed_field.2.2.2.1 2000 2000 ["TMAX"] [] badYearTmaxLine []
    initState "invalid literal for int() with base 10"
    (by with_unfolding_all rfl)
    (by with_unfolding_all rfl)

/-- C10: `processLine` parses the year (chars 11-15) and month (chars
15-17) fields before consulting the element filter, so a non-numeric year
or month aborts even on a line whose element is not requested; lines that
the element filter or the `[start_year - 1, end_year]` window rejects
return with the state untouched and their day-slots never parsed, so a
malformed day-value field on such a line cannot raise (nor can anything
on a line shorter than 21 characters). -/
theorem year_month_parsed_before_element_filter :
    (∀ (sy ey : Int) (elements : List String) (st : AccState) (line : List Char),
      line.length < 21 → processLine sy ey elements st line = .ok st) ∧
    (∀ (sy ey : Int) (elements : List String) (st : AccState) (line : List Char),
      ¬ line.length < 21 →
      pyInt (pySlice line 11 15) = none →
      processLine sy ey elements st line =
        .error "invalid literal for int() with base 10") ∧
    (∀ (sy ey : Int) (elements : List String) (st : AccState) (line : List Char)
        (year : Int),
      ¬ line.length < 21 →
      pyInt (pySlice line 11 15) = some year →
      pyInt (pySlice line 15 17) = none →
      processLine sy ey elements st line =
        .error "invalid literal for int() with base 10") ∧
    (∀ (sy ey : Int) (elements : List String) (st : AccState) (line : List Char)
        (year month : Int),
      ¬ line.length < 21 →
      pyInt (pySlice line 11 15) = some year →
      pyInt (pySlice line 15 17) = some month →
      (String.mk (pySlice line 17 21) ∉ elements ∨ year < sy - 1 ∨ ey < year) →
      processLine sy ey elements st line = .ok st) := by
  refine ⟨?_, ?_, ?_, ?_⟩
  · intro sy ey elements st line hshort
    simp only [processLine, if_pos hshort]
  · intro sy ey elements st line hlen hnone
    simp only [processLine, if_neg hlen, hnone]
  · intro sy ey elements st line year hlen hy hnone
    simp only [processLine, if_neg hlen, hy, hnone]
  · intro sy ey elements st line year month hlen hy hm hrej
    simp only [processLine, if_neg hlen, hy, hm]
    by_cases he : String.mk (pySlice line 17 21) ∈ elements
    · have hw : year < sy - 1 ∨ ey < year := by tauto
      rw [if_neg (fun hn => hn he), if_pos hw]
    · rw [if_pos he]

/-- C10 witness: the line with non-numeric year `2X00` raises the int()
error although its element `XXXX` is not requested, while the line with
the malformed day-value field `  1X0` but unrequested element `PRCP` is
filtered before its day-slots are ever parsed and raises nothing. -/
theorem year_month_parsed_before_element_filter_witness :
    processLine 2000 2000 ["TMIN", "TMAX"] initState badYearLine =
      .error "invalid literal for int() with base 10" ∧
    processLine 2000 2000 ["TMIN", "TMAX"] initState garbageDayLine = .ok initState := by
  constructor
  · exact year_month_parsed_before_element_filter.2.1 2000 2000 ["TMIN", "TMAX"]
      initState badYearLine
      (of_decide_eq_true (by with_unfolding_all rfl))
      (by with_unfolding_all rfl)
  · exact year_month_parsed_before_element_filter.2.2.2 2000 2000 ["TMIN", "TMAX"]
      initState garbageDayLine 2000 1
      (of_decide_eq_true (by with_unfolding_all rfl))
      (by with_unfolding_all rfl)
      (by with_unfolding_all rfl)
      (Or.inl (of_decide_eq_true (by with_unfolding_all rfl)))

/-- If no row matches the `(metric, year)` slot, the `by_metric` fill
leaves the dict entry untouched. -/
theorem byMetricLookup_of_filter_nil (metric : String) (y : Int) :
    ∀ (rows : List CacheRow) (acc : Option CacheRow),
      rows.filter (fun r => r.metric == metric && r.year == y) = [] →
      rows.foldl (fun acc r => if r.metric == metric && r.year == y then some r else acc) acc
        = acc := by
  intro rows
  induction rows with
  | nil => intro acc _; rfl
  | cons r rest ih =>
    intro acc h
    by_cases hp : (r.metric == metric && r.year == y) = true
    · simp [List.filter_cons, hp] at h
    · rw [List.filter_cons, if_neg hp] at h
      rw [List.foldl_cons, if_neg hp]
      exact ih acc h

/-- If exactly one row matches the `(metric, year)` slot, the `by_metric`
fill ends holding that row. -/
theorem byMetricLookup_of_filter_singleton (metric : String) (y : Int) (r0 : CacheRow) :
    ∀ (rows : List CacheRow) (acc : Option CacheRow),
      rows.filter (fun r => r.metric == metric && r.year == y) = [r0] →
      rows.foldl (fun acc r => if r.metric == metric && r.year == y then some r else acc) acc
        = some r0 := by
  intro rows
  induction rows with
  | nil => intro acc h; exact absurd h (by simp)
  | cons r rest ih =>
    intro acc h
    by_cases hp : (r.metric == metric && r.year == y) = true
    · rw [List.filter_cons, if_pos hp] at h
      obtain ⟨hr, hrest⟩ := List.cons.injEq .. ▸ h
      subst hr
      rw [List.foldl_cons, if_pos hp]
      exact byMetricLookup_of_filter_nil metric y rest (some r) hrest
    · rw [List.filter_cons, if_neg hp] at h
      rw [List.foldl_cons, if_neg hp]
      exact ih acc h

/-- Whatever row the `by_metric` fill ends with satisfies the slot's
metric/year test (provided the start value does). -/
theorem byMetricLookup_satisfies (metric : String) (y : Int) :
    ∀ (rows : List CacheRow) (acc : Option CacheRow) (r : CacheRow),
      (∀ x, acc = some x → (x.metric == metric && x.year == y) = true) →
      rows.foldl (fun acc r => if r.metric == metric && r.year == y then some r else acc) acc
        = some r →
      (r.metric == metric && r.year == y) = true := by
  intro rows
  induction rows with
  | nil =>
    intro acc r hacc h
    exact hacc r h
  | cons a rest ih =>
    intro acc r hacc h
    rw [List.foldl_cons] at h
    by_cases hp : (a.metric == metric && a.year == y) = true
    · rw [if_pos hp] at h
      refine ih (some a) r ?_ h
      intro x hx
      cases Option.some.inj hx
      exact hp
    · rw [if_neg hp] at h
      exact ih acc r hacc h

/-- `by_metric` has no entry for a `(metric, year)` slot no selected row
matches. -/
theorem byMetricLookup_none (rows : List CacheRow) (metric : String) (y : Int)
    (h : rows.filter (fun r => r.metric == metric && r.year == y) = []) :
    byMetricLookup rows metric y = none := by
  unfold byMetricLookup
  exact byMetricLookup_of_filter_nil metric y rows none h

/-- `by_metric` holds exactly the unique selected row of its slot. -/
theorem byMetricLookup_single (rows : List CacheRow) (metric : String) (y : Int)
    (r0 : CacheRow)
    (h : rows.filter (fun r => r.metric == metric && r.year == y) = [r0]) :
    byMetricLookup rows metric y = some r0 := by
  unfold byMetricLookup
  exact byMetricLookup_of_filter_singleton metric y r0 rows none h

/-- A row found in `by_metric` matches its slot's metric and year. -/
theorem byMetricLookup_year (rows : List CacheRow) (metric : String) (y : Int)
    (r : CacheRow) (h : byMetricLookup rows metric y = some r) : r.year = y := by
  unfold byMetricLookup at h
  have hsat := byMetricLookup_satisfies metric y rows none r (by intro x hx; cases hx) h
  have := (Bool.and_eq_true ..).mp hsat
  exact beq_iff_eq.mp this.2

/-- C6: for every cache state, `load_cached_series` answers each requested
metric with exactly `end_year - start_year + 1` points in ascending year
order (`sy + i` at index `i`); a year served by a unique cached row under
the matching hash carries that row's value and day counts, and a year with
no matching row carries the placeholder `value_c = none, present_days = 0,
expected_days = 0` — an empty cache yields all placeholders, never an
error or a shorter list. -/
theorem load_series_dense (db : List CacheRow) (station sha : String) (sy ey : Int)
    (metrics : List String) :
    ((load_cached_series db station sha sy ey metrics).map (fun s => s.key) = metrics) ∧
    (∀ s, s ∈ load_cached_series db station sha sy ey metrics →
      s.sha256 = sha ∧
      s.points.length = (ey + 1 - sy).toNat ∧
      ∀ (i : Nat) (hi : i < s.points.length),
        (s.points.get ⟨i, hi⟩).year = sy + (i : Int) ∧
        (matchingRows db station sha sy ey metrics s.key (sy + (i : Int)) = [] →
          s.points.get ⟨i, hi⟩ = ⟨sy + (i : Int), none, 0, 0⟩) ∧
        (∀ r, matchingRows db station sha sy ey metrics s.key (sy + (i : Int)) = [r] →
          s.points.get ⟨i, hi⟩ =
            ⟨sy + (i : Int), r.value_c, r.present_days, r.expected_days⟩)) := by
  constructor
  · rw [load_cached_series, List.map_map]
    conv_rhs => rw [← List.map_id metrics]
    rfl
  · intro s hs
    rcases List.mem_map.mp hs with ⟨metric, hmem, rfl⟩
    have hlen : ((yearsList sy ey).map
        (loadPoint (loadSelect db station sha sy ey metrics) metric)).length =
        (ey + 1 - sy).toNat := by
      rw [List.length_map]
      unfold yearsList
      rw [List.length_map, List.length_range]
    refine ⟨rfl, hlen, ?_⟩
    intro i hi
    have hget : ((yearsList sy ey).map
        (loadPoint (loadSelect db station sha sy ey metrics) metric)).get
          ⟨i, hi⟩ =
        loadPoint (loadSelect db station sha sy ey metrics) metric (sy + (i : Int)) := by
      simp only [List.get_eq_getElem, List.getElem_map]
      congr 1
      unfold yearsList
      rw [List.getElem_map, List.getElem_range]
    refine ⟨?_, ?_, ?_⟩
    · rw [hget]
      unfold loadPoint
      cases hlk : byMetricLookup (loadSelect db station sha sy ey metrics) metric
          (sy + (i : Int)) with
      | none => rfl
      | some r =>
        simpa using byMetricLookup_year _ _ _ _ hlk
    · intro hnil
      rw [hget]
      unfold loadPoint
      rw [byMetricLookup_none (loadSelect db station sha sy ey metrics) metric
        (sy + (i : Int)) hnil]
    · intro r hsingle
      rw [hget]
      unfold loadPoint
      have hlk := byMetricLookup_single (loadSelect db station sha sy ey metrics) metric
        (sy + (i : Int)) r hsingle
      rw [hlk]
      have hyr := byMetricLookup_year _ _ _ _ hlk
      simp [hyr]

/-- C6 witness: reading three years of `tmax_year` from an empty cache
yields the single requested key with exactly three placeholder points. -/
theorem load_series_dense_witness :
    (⟨"tmax_year", "H", [⟨2000, none, 0, 0⟩, ⟨2001, none, 0, 0⟩, ⟨2002, none, 0, 0⟩]⟩ :
        SeriesOut) ∈ load_cached_series [] "ST" "H" 2000 2002 ["tmax_year"] ∧
    (⟨"tmax_year", "H", [⟨2000, none, 0, 0⟩, ⟨2001, none, 0, 0⟩, ⟨2002, none, 0, 0⟩]⟩ :
        SeriesOut).points.length = ((2002 : Int) + 1 - 2000).toNat := by
  have heq : load_cached_series [] "ST" "H" 2000 2002 ["tmax_year"] =
      [⟨"tmax_year", "H", [⟨2000, none, 0, 0⟩, ⟨2001, none, 0, 0⟩, ⟨2002, none, 0, 0⟩]⟩] := by
    with_unfolding_all rfl
  have hmem : (⟨"tmax_year", "H",
      [⟨2000, none, 0, 0⟩, ⟨2001, none, 0, 0⟩, ⟨2002, none, 0, 0⟩]⟩ : SeriesOut) ∈
      load_cached_series [] "ST" "H" 2000 2002 ["tmax_year"] := by
    rw [heq]
    exact List.mem_singleton.mpr rfl
  exact ⟨hmem, ((load_series_dense [] "ST" "H" 2000 2002 ["tmax_year"]).2 _ hmem).2.1⟩

/-- The upserted row itself is in the table afterwards. -/
theorem mem_upsertRow_self (db : List CacheRow) (new : CacheRow) :
    new ∈ upsertRow db new := by
  unfold upsertRow
  by_cases h : (db.any fun r => rowKeyMatches r new.station_id new.metric new.year) = true
  · rw [if_pos h]
    obtain ⟨r, hr, hmatch⟩ := List.any_eq_true.mp h
    exact List.mem_map.mpr ⟨r, hr, by rw [if_pos hmatch]⟩
  · rw [if_neg h]
    exact List.mem_append_right _ (List.mem_singleton.mpr rfl)

/-- A row in a different primary-key slot survives an upsert untouched. -/
theorem mem_upsertRow_of_not_key (db : List CacheRow) (new r : CacheRow) (hr : r ∈ db)
    (hk : rowKeyMatches r new.station_id new.metric new.year = false) :
    r ∈ upsertRow db new := by
  unfold upsertRow
  by_cases h : (db.any fun x => rowKeyMatches x new.station_id new.metric new.year) = true
  · rw [if_pos h]
    refine List.mem_map.mpr ⟨r, hr, ?_⟩
    rw [if_neg (by simp [hk])]
  · rw [if_neg h]
    exact List.mem_append_left _ hr

/-- An upsert whose row carries this station and hash preserves the
existence of a row serving any `(metric, year)` slot under that hash. -/
theorem upsertRow_preserves_good (db : List CacheRow) (new : CacheRow)
    (station sha m : String) (y : Int)
    (hst : new.station_id = station) (hsha : new.sha256 = sha)
    (h : ∃ r ∈ db, goodRow station sha m y r) :
    ∃ r ∈ upsertRow db new, goodRow station sha m y r := by
  obtain ⟨r, hr, hg⟩ := h
  cases hk : rowKeyMatches r new.station_id new.metric new.year with
  | true =>
    have h3 := hk
    unfold rowKeyMatches at h3
    simp only [Bool.and_eq_true, beq_iff_eq] at h3
    obtain ⟨⟨_, h5⟩, h6⟩ := h3
    obtain ⟨_, _, g3, g4⟩ := hg
    exact ⟨new, mem_upsertRow_self db new, hst, hsha, by rw [← h5, g3], by rw [← h6, g4]⟩
  | false =>
    exact ⟨r, mem_upsertRow_of_not_key db new r hr hk, hg⟩

/-- A metric's commit loop preserves rows serving any slot under the run's
station and hash. -/
theorem foldPoints_preserves_good (station sha metric m : String) (y : Int)
    (ps : List MeanPoint) :
    ∀ db : List CacheRow, (∃ r ∈ db, goodRow station sha m y r) →
      ∃ r ∈ ps.foldl (fun acc2 p => upsertRow acc2 (pointRow station sha metric p)) db,
        goodRow station sha m y r := by
  induction ps with
  | nil => intro db h; exact h
  | cons q rest ih =>
    intro db h
    rw [List.foldl_cons]
    exact ih _ (upsertRow_preserves_good db (pointRow station sha metric q)
      station sha m y rfl rfl h)

/-- After a metric's commit loop, every upserted point's year slot is
served under the run's hash. -/
theorem foldPoints_good (station sha metric : String) (ps : List MeanPoint) :
    ∀ (p : MeanPoint), p ∈ ps →
      ∀ db : List CacheRow,
        ∃ r ∈ ps.foldl (fun acc2 p => upsertRow acc2 (pointRow station sha metric p)) db,
          goodRow station sha metric p.year r := by
  induction ps with
  | nil => intro p hp; exact absurd hp (List.not_mem_nil p)
  | cons q rest ih =>
    intro p hp db
    rw [List.foldl_cons]
    rcases List.mem_cons.mp hp with hq | hrest
    · subst hq
      exact foldPoints_preserves_good station sha metric metric p.year rest _
        ⟨pointRow station sha metric p, mem_upsertRow_self _ _, rfl, rfl, rfl, rfl⟩
    · exact ih p hrest _

/-- The whole commit fold preserves rows serving any slot under the run's
station and hash. -/
theorem foldMetrics_preserves_good (station sha m : String) (y : Int)
    (series : List (String × List MeanPoint)) (ms : List String) :
    ∀ db : List CacheRow, (∃ r ∈ db, goodRow station sha m y r) →
      ∃ r ∈ ms.foldl (fun acc metric => (dictGet series metric []).foldl
          (fun acc2 p => upsertRow acc2 (pointRow station sha metric p)) acc) db,
        goodRow station sha m y r := by
  induction ms with
  | nil => intro db h; exact h
  | cons m0 rest ih =>
    intro db h
    rw [List.foldl_cons]
    exact ih _ (foldPoints_preserves_good station sha m0 m y (dictGet series m0 []) db h)

/-- After the whole commit fold, every `(metric, year)` slot covered by
the computed series is served under the run's hash. -/
theorem foldMetrics_good (station sha : String)
    (series : List (String × List MeanPoint)) (ms : List String) :
    ∀ (metric : String), metric ∈ ms →
      ∀ (y : Int), (∃ p ∈ dictGet series metric [], p.year = y) →
        ∀ db : List CacheRow,
          ∃ r ∈ ms.foldl (fun acc metric => (dictGet series metric []).foldl
              (fun acc2 p => upsertRow acc2 (pointRow station sha metric p)) acc) db,
            goodRow station sha metric y r := by
  induction ms with
  | nil => intro metric hm; exact absurd hm (List.not_mem_nil metric)
  | cons m0 rest ih =>
    intro metric hm y hy db
    rw [List.foldl_cons]
    rcases List.mem_cons.mp hm with h0 | hrest
    · subst h0
      obtain ⟨p, hp, hpy⟩ := hy
      have hgood := foldPoints_good station sha metric (dictGet series metric []) p hp db
      rw [hpy] at hgood
      exact foldMetrics_preserves_good station sha metric y series rest _ hgood
    · exact ih metric hrest y hy _

/-- The ten built series list their points in ascending year order: the
image of the `year` field is exactly `range(start_year, end_year + 1)`. -/
theorem buildYearPoints_years (st : AccState) (sy ey : Int) (e : String) :
    (buildYearPoints st sy ey e).map (fun p => p.year) = yearsList sy ey := by
  unfold buildYearPoints
  rw [List.map_map]
  exact List.map_id' _

/-- Season analogue of `buildYearPoints_years`. -/
theorem buildSeasonPoints_years (st : AccState) (sy ey : Int) (e : String) (s : Season) :
    (buildSeasonPoints st sy ey e s).map (fun p => p.year) = yearsList sy ey := by
  unfold buildSeasonPoints
  rw [List.map_map]
  exact List.map_id' _

/-- The first matching entry of the dict, after one of its slots was
overwritten in place, is unchanged for every other key. -/
theorem find_map_ne {α β : Type} [DecidableEq α] (k k2 : α) (v : β) (hne : k2 ≠ k) :
    ∀ d : List (α × β),
      (d.map (fun p => if p.1 = k then (k, v) else p)).find? (fun p => decide (p.1 = k2)) =
        d.find? (fun p => decide (p.1 = k2)) := by
  intro d
  induction d with
  | nil => rfl
  | cons p rest ih =>
    rw [List.map_cons, List.find?_cons, List.find?_cons]
    by_cases hp : p.1 = k
    · rw [if_pos hp]
      rw [decide_eq_false (fun h => hne (h.symm))]
      rw [decide_eq_false (fun h => hne (hp ▸ h).symm)]
      exact ih
    · rw [if_neg hp]
      by_cases hp2 : p.1 = k2
      · rw [decide_eq_true hp2]
      · rw [decide_eq_false hp2]
        exact ih

/-- After overwriting the (occupied) slot of key `k` in place, the first
entry found for `k` is the new value. -/
theorem find_map_same {α β : Type} [DecidableEq α] (k : α) (v : β) :
    ∀ d : List (α × β), (d.any fun p => decide (p.1 = k)) = true →
      (d.map (fun p => if p.1 = k then (k, v) else p)).find? (fun p => decide (p.1 = k)) =
        some (k, v) := by
  intro d
  induction d with
  | nil => intro h; simp at h
  | cons p rest ih =>
    intro h
    rw [List.map_cons, List.find?_cons]
    by_cases hp : p.1 = k
    · rw [if_pos hp, decide_eq_true rfl]
    · rw [if_neg hp, decide_eq_false hp]
      rw [List.any_cons, decide_eq_false hp, Bool.false_or] at h
      exact ih h

/-- `d[k] = v` followed by `d.get(k, dflt)` yields `v`. -/
theorem dictGet_dictSet_same {α β : Type} [DecidableEq α] (d : List (α × β)) (k : α)
    (v : β) (dflt : β) : dictGet (dictSet d k v) k dflt = v := by
  unfold dictGet dictSet
  by_cases h : (d.any fun p => decide (p.1 = k)) = true
  · rw [if_pos h, find_map_same k v d h]
  · rw [if_neg h, List.find?_append]
    have hnone : d.find? (fun p => decide (p.1 = k)) = none := by
      rw [List.find?_eq_none]
      intro p hp hdec
      exact h (List.any_eq_true.mpr ⟨p, hp, hdec⟩)
    rw [hnone]
    simp

/-- `d[k] = v` leaves `d.get(k2, dflt)` unchanged for every other key. -/
theorem dictGet_dictSet_ne {α β : Type} [DecidableEq α] (d : List (α × β)) (k k2 : α)
    (v : β) (dflt : β) (hne : k2 ≠ k) :
    dictGet (dictSet d k v) k2 dflt = dictGet d k2 dflt := by
  unfold dictGet dictSet
  by_cases h : (d.any fun p => decide (p.1 = k)) = true
  · rw [if_pos h, find_map_ne k k2 v hne d]
  · rw [if_neg h, List.find?_append]
    have hone : ([(k, v)].find? fun p => decide (p.1 = k2)) = none := by
      rw [List.find?_cons, decide_eq_false (fun hh => hne hh.symm)]
      rfl
    rw [hone, Option.or_none]

/-- Keyed lookup of the assembled output of `compute_means` for the two
requested elements: each of the ten metric keys maps to the matching
built series. -/
theorem buildOut_lookup (st : AccState) (sy ey : Int) :
    dictGet (buildOut st sy ey ["TMIN", "TMAX"]) "tmin_year" [] =
      buildYearPoints st sy ey "TMIN" ∧
    dictGet (buildOut st sy ey ["TMIN", "TMAX"]) "tmax_year" [] =
      buildYearPoints st sy ey "TMAX" ∧
    dictGet (buildOut st sy ey ["TMIN", "TMAX"]) "tmin_spring" [] =
      buildSeasonPoints st sy ey "TMIN" .spring ∧
    dictGet (buildOut st sy ey ["TMIN", "TMAX"]) "tmax_spring" [] =
      buildSeasonPoints st sy ey "TMAX" .spring ∧
    dictGet (buildOut st sy ey ["TMIN", "TMAX"]) "tmin_summer" [] =
      buildSeasonPoints st sy ey "TMIN" .summer ∧
    dictGet (buildOut st sy ey ["TMIN", "TMAX"]) "tmax_summer" [] =
      buildSeasonPoints st sy ey "TMAX" .summer ∧
    dictGet (buildOut st sy ey ["TMIN", "TMAX"]) "tmin_autumn" [] =
      buildSeasonPoints st sy ey "TMIN" .autumn ∧
    dictGet (buildOut st sy ey ["TMIN", "TMAX"]) "tmax_autumn" [] =
      buildSeasonPoints st sy ey "TMAX" .autumn ∧
    dictGet (buildOut st sy ey ["TMIN", "TMAX"]) "tmin_winter" [] =
      buildSeasonPoints st sy ey "TMIN" .winter ∧
    dictGet (buildOut st sy ey ["TMIN", "TMAX"]) "tmax_winter" [] =
      buildSeasonPoints st sy ey "TMAX" .winter := by
  refine ⟨?_, ?_, ?_, ?_, ?_, ?_, ?_, ?_, ?_, ?_⟩ <;>
  · simp only [buildOut, List.foldl_cons, List.foldl_nil, seasonName]
    rw [(by with_unfolding_all rfl : "TMIN".toLower = "tmin"),
      (by with_unfolding_all rfl : "TMAX".toLower = "tmax")]
    simp +decide only [dictGet_dictSet_ne, dictGet_dictSet_same,
      (by decide : "tmin" ++ "_year" = "tmin_year"),
      (by decide : "tmin" ++ "_" ++ "spring" = "tmin_spring"),
      (by decide : "tmin" ++ "_" ++ "summer" = "tmin_summer"),
      (by decide : "tmin" ++ "_" ++ "autumn" = "tmin_autumn"),
      (by decide : "tmin" ++ "_" ++ "winter" = "tmin_winter"),
      (by decide : "tmax" ++ "_year" = "tmax_year"),
      (by decide : "tmax" ++ "_" ++ "spring" = "tmax_spring"),
      (by decide : "tmax" ++ "_" ++ "summer" = "tmax_summer"),
      (by decide : "tmax" ++ "_" ++ "autumn" = "tmax_autumn"),
      (by decide : "tmax" ++ "_" ++ "winter" = "tmax_winter")]

/-- Every metric key of `ALL_METRICS` in the output of a run lists its
point years as exactly `range(start_year, end_year + 1)`. -/
theorem series_years (st : AccState) (sy ey : Int) (m : String) (hm : m ∈ ALL_METRICS) :
    (dictGet (buildOut st sy ey ["TMIN", "TMAX"]) m []).map (fun p => p.year) =
      yearsList sy ey := by
  have hb := buildOut_lookup st sy ey
  fin_cases hm
  · rw [hb.1]; exact buildYearPoints_years st sy ey "TMIN"
  · rw [hb.2.1]; exact buildYearPoints_years st sy ey "TMAX"
  · rw [hb.2.2.1]; exact buildSeasonPoints_years st sy ey "TMIN" .spring
  · rw [hb.2.2.2.1]; exact buildSeasonPoints_years st sy ey "TMAX" .spring
  · rw [hb.2.2.2.2.1]; exact buildSeasonPoints_years st sy ey "TMIN" .summer
  · rw [hb.2.2.2.2.2.1]; exact buildSeasonPoints_years st sy ey "TMAX" .summer
  · rw [hb.2.2.2.2.2.2.1]; exact buildSeasonPoints_years st sy ey "TMIN" .autumn
  · rw [hb.2.2.2.2.2.2.2.1]; exact buildSeasonPoints_years st sy ey "TMAX" .autumn
  · rw [hb.2.2.2.2.2.2.2.2.1]; exact buildSeasonPoints_years st sy ey "TMIN" .winter
  · rw [hb.2.2.2.2.2.2.2.2.2]; exact buildSeasonPoints_years st sy ey "TMAX" .winter

/-- Each metric's series covers every year of the requested range. -/
theorem series_covers (st : AccState) (sy ey : Int) (m : String) (hm : m ∈ ALL_METRICS)
    (y : Int) (hy : y ∈ yearsList sy ey) :
    ∃ p ∈ dictGet (buildOut st sy ey ["TMIN", "TMAX"]) m [], p.year = y := by
  rw [← series_years st sy ey m hm] at hy
  exact List.mem_map.mp hy

/-- `range(start_year, end_year + 1)` has no duplicate years. -/
theorem yearsList_nodup (sy ey : Int) : (yearsList sy ey).Nodup := by
  unfold yearsList
  refine List.Nodup.map ?_ (List.nodup_range _)
  intro a b hab
  have hab2 : sy + (a : Int) = sy + (b : Int) := hab
  omega

/-- Years of `range(start_year, end_year + 1)` lie inside the range. -/
theorem mem_yearsList_bounds (sy ey y : Int) (hy : y ∈ yearsList sy ey) :
    sy ≤ y ∧ y ≤ ey := by
  unfold yearsList at hy
  obtain ⟨i, hi, rfl⟩ := List.mem_map.mp hy
  rw [List.mem_range] at hi
  omega

/-- `range(start_year, end_year + 1)` has `(end_year + 1 - start_year)`
entries (clamped at zero). -/
theorem yearsList_length (sy ey : Int) : (yearsList sy ey).length = (ey + 1 - sy).toNat := by
  unfold yearsList
  rw [List.length_map, List.length_range]

/-- Counting: if a list of pairwise-distinct `(metric, year)` slots inside
the year range is each served by some row under `(station, sha)`, the
fast-path count is at least the number of slots. -/
theorem count_ge_keys (station sha : String) (sy ey : Int) (keys : List (String × Int)) :
    ∀ db : List CacheRow, keys.Nodup →
      (∀ k ∈ keys, sy ≤ k.2 ∧ k.2 ≤ ey) →
      (∀ k ∈ keys, ∃ r ∈ db, goodRow station sha k.1 k.2 r) →
      keys.length ≤ countCachedRows db station sha sy ey := by
  induction keys with
  | nil => intro db _ _ _; exact Nat.zero_le _
  | cons k ks ih =>
    intro db hnd hin hgood
    obtain ⟨r, hr, hg⟩ := hgood k (List.mem_cons_self k ks)
    obtain ⟨g1, g2, g3, g4⟩ := hg
    have hbounds := hin k (List.mem_cons_self k ks)
    have hC : (fun x : CacheRow => x.station_id == station && x.sha256 == sha &&
        decide (sy ≤ x.year) && decide (x.year ≤ ey)) r = true := by
      simp [g1, g2, g4, hbounds.1, hbounds.2]
    have hcount : countCachedRows db station sha sy ey =
        countCachedRows (db.erase r) station sha sy ey + 1 := by
      unfold countCachedRows
      rw [List.Perm.length_eq (List.Perm.filter _ (List.perm_cons_erase hr))]
      rw [List.filter_cons, if_pos hC, List.length_cons]
    have hgood2 : ∀ k2 ∈ ks, ∃ r2 ∈ db.erase r, goodRow station sha k2.1 k2.2 r2 := by
      intro k2 hk2
      obtain ⟨r2, hr2, hg2⟩ := hgood k2 (List.mem_cons_of_mem k hk2)
      have hne : r2 ≠ r := by
        intro he
        subst he
        obtain ⟨_, _, h3, h4⟩ := hg2
        have hk12 : k = k2 := by
          obtain ⟨ka, kb⟩ := k
          obtain ⟨k2a, k2b⟩ := k2
          simp only at g3 g4 h3 h4
          rw [← g3, h3, ← g4, h4]
        exact (List.nodup_cons.mp hnd).1 (hk12 ▸ hk2)
      exact ⟨r2, (List.mem_erase_of_ne hne).mpr hr2, hg2⟩
    have hrest := ih (db.erase r) (List.nodup_cons.mp hnd).2
      (fun k2 hk2 => hin k2 (List.mem_cons_of_mem k hk2)) hgood2
    rw [List.length_cons, hcount]
    omega

/-- After a successful commit, the fast-path count reaches the warm-cache
threshold `(end_year - start_year + 1) * 10`. -/
theorem count_after_commit (db : List CacheRow) (station sha : String) (st : AccState)
    (sy ey : Int) :
    (ey - sy + 1) * (ALL_METRICS.length : Int) ≤
      (countCachedRows (commitSeries db station sha (buildOut st sy ey ["TMIN", "TMAX"]))
        station sha sy ey : Int) := by
  have h10 : ALL_METRICS.length = 10 := rfl
  by_cases hle : sy ≤ ey
  · have hnodup : (ALL_METRICS ×ˢ yearsList sy ey).Nodup :=
      List.Nodup.product (by decide) (yearsList_nodup sy ey)
    have hin : ∀ k ∈ ALL_METRICS ×ˢ yearsList sy ey, sy ≤ k.2 ∧ k.2 ≤ ey := by
      intro k hk
      obtain ⟨m, y⟩ := k
      exact mem_yearsList_bounds sy ey y (List.mem_product.mp hk).2
    have hgood : ∀ k ∈ ALL_METRICS ×ˢ yearsList sy ey,
        ∃ r ∈ commitSeries db station sha (buildOut st sy ey ["TMIN", "TMAX"]),
          goodRow station sha k.1 k.2 r := by
      intro k hk
      obtain ⟨m, y⟩ := k
      obtain ⟨hm, hy⟩ := List.mem_product.mp hk
      unfold commitSeries
      exact foldMetrics_good station sha (buildOut st sy ey ["TMIN", "TMAX"]) ALL_METRICS
        m hm y (series_covers st sy ey m hm y hy) db
    have hcount := count_ge_keys station sha sy ey (ALL_METRICS ×ˢ yearsList sy ey)
      (commitSeries db station sha (buildOut st sy ey ["TMIN", "TMAX"])) hnodup hin hgood
    rw [List.length_product, h10, yearsList_length] at hcount
    rw [h10]
    omega
  · rw [h10]
    have : (countCachedRows (commitSeries db station sha (buildOut st sy ey ["TMIN", "TMAX"]))
        station sha sy ey : Int) ≥ 0 := Int.ofNat_nonneg _
    omega

/-- C5: populate is idempotent — when the cache already holds at least
`(end_year - start_year + 1) * 10` rows for `(station, hash)` inside the
year range, `ensure_cached_metrics` returns at once, taking no lock and
computing nothing; consequently, once a call has returned successfully, a
second call for the same `(station, hash, range)` is a no-op, so the full
aggregation runs at most once. -/
theorem populate_idempotent :
    (∀ (db : List CacheRow) (station sha : String) (fileLines : List (List Char))
        (sy ey : Int),
      (ey - sy + 1) * (ALL_METRICS.length : Int) ≤
          (countCachedRows db station sha sy ey : Int) →
      ensure_cached_metrics db station sha fileLines sy ey =
        { db := db, computed := false, tookLock := false, err := none }) ∧
    (∀ (db : List CacheRow) (station sha : String) (fileLines : List (List Char))
        (sy ey : Int),
      (ensure_cached_metrics db station sha fileLines sy ey).err = none →
      ensure_cached_metrics (ensure_cached_metrics db station sha fileLines sy ey).db
          station sha fileLines sy ey =
        { db := (ensure_cached_metrics db station sha fileLines sy ey).db,
          computed := false, tookLock := false, err := none }) := by
  have partA : ∀ (db : List CacheRow) (station sha : String)
      (fileLines : List (List Char)) (sy ey : Int),
      (ey - sy + 1) * (ALL_METRICS.length : Int) ≤
          (countCachedRows db station sha sy ey : Int) →
      ensure_cached_metrics db station sha fileLines sy ey =
        { db := db, computed := false, tookLock := false, err := none } := by
    intro db station sha fileLines sy ey h
    simp only [ensure_cached_metrics]
    rw [if_pos h]
  refine ⟨partA, ?_⟩
  intro db station sha fileLines sy ey herr
  by_cases h1 : (ey - sy + 1) * (ALL_METRICS.length : Int) ≤
      (countCachedRows db station sha sy ey : Int)
  · rw [partA db station sha fileLines sy ey h1]
    exact partA db station sha fileLines sy ey h1
  · cases hcm : compute_means fileLines sy ey ["TMIN", "TMAX"] with
    | error e =>
      have hE : ensure_cached_metrics db station sha fileLines sy ey =
          { db := db, computed := true, tookLock := true, err := some e } := by
        simp only [ensure_cached_metrics]
        rw [if_neg h1, if_neg h1, hcm]
      rw [hE] at herr
      exact absurd herr (by simp)
    | ok series =>
      have hE : ensure_cached_metrics db station sha fileLines sy ey =
          { db := commitSeries db station sha series, computed := true,
            tookLock := true, err := none } := by
        simp only [ensure_cached_metrics]
        rw [if_neg h1, if_neg h1, hcm]
      rw [hE]
      dsimp only
      obtain ⟨st, hst⟩ : ∃ st, series = buildOut st sy ey ["TMIN", "TMAX"] := by
        unfold compute_means at hcm
        cases hf : List.foldlM (processLine sy ey ["TMIN", "TMAX"]) initState fileLines with
        | error e2 => rw [hf] at hcm; exact absurd hcm (by simp)
        | ok stt => rw [hf] at hcm; exact ⟨stt, (Except.ok.inj hcm).symm⟩
      subst hst
      exact partA (commitSeries db station sha (buildOut st sy ey ["TMIN", "TMAX"]))
        station sha fileLines sy ey (count_after_commit db station sha st sy ey)

/-- C5 witness: an already-warm (here: degenerate empty-range) request
returns at once, with no lock taken and nothing computed. -/
theorem populate_idempotent_witness :
    ensure_cached_metrics [] "ST" "H" [] 1 0 =
      { db := [], computed := false, tookLock := false, err := none } :=
  populate_idempotent.1 [] "ST" "H" [] 1 0 (by decide)

/-- A committed row whose key clashes with none of the remaining points of
a metric's commit loop survives that loop. -/
theorem foldPoints_preserves_mem (station sha metric : String) (ps : List MeanPoint)
    (v : CacheRow) :
    ∀ db : List CacheRow, v ∈ db →
      (∀ q ∈ ps, rowKeyMatches v station metric q.year = false) →
      v ∈ ps.foldl (fun acc2 p => upsertRow acc2 (pointRow station sha metric p)) db := by
  induction ps with
  | nil => intro db hv _; exact hv
  | cons q rest ih =>
    intro db hv hk
    rw [List.foldl_cons]
    refine ih _ ?_ (fun x hx => hk x (List.mem_cons_of_mem q hx))
    exact mem_upsertRow_of_not_key db (pointRow station sha metric q) v hv
      (hk q (List.mem_cons_self q rest))

/-- When a metric's points carry pairwise distinct years, each point's
exact row (values included) is in the table after the metric's commit
loop. -/
theorem foldPoints_mem (station sha metric : String) (ps : List MeanPoint) :
    ∀ (p : MeanPoint), p ∈ ps → ((ps.map fun q => q.year).Nodup) →
      ∀ db : List CacheRow,
        pointRow station sha metric p ∈
          ps.foldl (fun acc2 p => upsertRow acc2 (pointRow station sha metric p)) db := by
  induction ps with
  | nil => intro p hp; exact absurd hp (List.not_mem_nil p)
  | cons q rest ih =>
    intro p hp hnd db
    rw [List.map_cons, List.nodup_cons] at hnd
    rw [List.foldl_cons]
    rcases List.mem_cons.mp hp with hq | hrest
    · subst hq
      refine foldPoints_preserves_mem station sha metric rest (pointRow station sha metric p)
        _ (mem_upsertRow_self db _) ?_
      intro x hx
      have hne : p.year ≠ x.year := by
        intro he
        exact hnd.1 (he ▸ List.mem_map.mpr ⟨x, hx, rfl⟩)
      unfold rowKeyMatches pointRow
      simp [hne]
    · exact ih p hrest hnd.2 _

/-- A committed row of one metric survives the commit loops of all other
metrics. -/
theorem foldMetrics_preserves_mem (station sha : String)
    (series : List (String × List MeanPoint)) (ms : List String) (v : CacheRow) :
    ∀ db : List CacheRow, v ∈ db →
      (∀ m ∈ ms, ∀ q ∈ dictGet series m [], rowKeyMatches v station m q.year = false) →
      v ∈ ms.foldl (fun acc metric => (dictGet series metric []).foldl
          (fun acc2 p => upsertRow acc2 (pointRow station sha metric p)) acc) db := by
  induction ms with
  | nil => intro db hv _; exact hv
  | cons m0 rest ih =>
    intro db hv hk
    rw [List.foldl_cons]
    refine ih _ ?_ (fun m hm q hq => hk m (List.mem_cons_of_mem m0 hm) q hq)
    exact foldPoints_preserves_mem station sha m0 (dictGet series m0 []) v db hv
      (fun q hq => hk m0 (List.mem_cons_self m0 rest) q hq)

/-- Across the whole commit fold (distinct metric keys, distinct years per
metric), every produced point lands as its exact row. -/
theorem foldMetrics_mem (station sha : String)
    (series : List (String × List MeanPoint)) (ms : List String) :
    ∀ (metric : String), metric ∈ ms → ms.Nodup →
      (∀ m ∈ ms, ((dictGet series m []).map fun q => q.year).Nodup) →
      ∀ (p : MeanPoint), p ∈ dictGet series metric [] →
        ∀ db : List CacheRow,
          pointRow station sha metric p ∈
            ms.foldl (fun acc metric => (dictGet series metric []).foldl
                (fun acc2 p => upsertRow acc2 (pointRow station sha metric p)) acc) db := by
  induction ms with
  | nil => intro metric hm; exact absurd hm (List.not_mem_nil metric)
  | cons m0 rest ih =>
    intro metric hm hnd hydnd p hp db
    rw [List.nodup_cons] at hnd
    rw [List.foldl_cons]
    rcases List.mem_cons.mp hm with h0 | hrest
    · subst h0
      refine foldMetrics_preserves_mem station sha series rest
        (pointRow station sha metric p) _ ?_ ?_
      · exact foldPoints_mem station sha metric (dictGet series metric []) p hp
          (hydnd metric (List.mem_cons_self metric rest)) db
      · intro m hm2 q hq
        have hne : metric ≠ m := fun he => hnd.1 (he ▸ hm2)
        unfold rowKeyMatches pointRow
        simp [hne]
    · exact ih metric hrest hnd.2
        (fun m hm2 => hydnd m (List.mem_cons_of_mem m0 hm2)) p hp _

/-- C8: a populate run's commit is all-or-nothing — if the run raises, the
table is exactly as before (previously committed rows untouched, nothing
partial), and if it completes having computed, every produced MeanPoint is
in the table as a row keyed `(station, metric, year)` carrying the run's
hash, value and day counts. -/
theorem commit_all_or_nothing :
    (∀ (db : List CacheRow) (station sha : String) (fileLines : List (List Char))
        (sy ey : Int),
      (ensure_cached_metrics db station sha fileLines sy ey).err ≠ none →
      (ensure_cached_metrics db station sha fileLines sy ey).db = db) ∧
    (∀ (db : List CacheRow) (station sha : String) (fileLines : List (List Char))
        (sy ey : Int) (series : List (String × List MeanPoint)) (metric : String)
        (p : MeanPoint),
      compute_means fileLines sy ey ["TMIN", "TMAX"] = .ok series →
      (ensure_cached_metrics db station sha fileLines sy ey).computed = true →
      (ensure_cached_metrics db station sha fileLines sy ey).err = none →
      metric ∈ ALL_METRICS →
      p ∈ dictGet series metric [] →
      pointRow station sha metric p ∈ (ensure_cached_metrics db station sha fileLines sy ey).db) := by
  constructor
  · intro db station sha fileLines sy ey herr
    by_cases h1 : (ey - sy + 1) * (ALL_METRICS.length : Int) ≤
        (countCachedRows db station sha sy ey : Int)
    · have hE : ensure_cached_metrics db station sha fileLines sy ey =
          { db := db, computed := false, tookLock := false, err := none } := by
        simp only [ensure_cached_metrics]
        rw [if_pos h1]
      rw [hE] at herr
      exact absurd rfl herr
    · cases hcm : compute_means fileLines sy ey ["TMIN", "TMAX"] with
      | error e =>
        have hE : ensure_cached_metrics db station sha fileLines sy ey =
            { db := db, computed := true, tookLock := true, err := some e } := by
          simp only [ensure_cached_metrics]
          rw [if_neg h1, if_neg h1, hcm]
        rw [hE]
      | ok series =>
        have hE : ensure_cached_metrics db station sha fileLines sy ey =
            { db := commitSeries db station sha series, computed := true,
              tookLock := true, err := none } := by
          simp only [ensure_cached_metrics]
          rw [if_neg h1, if_neg h1, hcm]
        rw [hE] at herr
        exact absurd rfl herr
  · intro db station sha fileLines sy ey series metric p hcm hcomp herr hm hp
    by_cases h1 : (ey - sy + 1) * (ALL_METRICS.length : Int) ≤
        (countCachedRows db station sha sy ey : Int)
    · have hE : ensure_cached_metrics db station sha fileLines sy ey =
          { db := db, computed := false, tookLock := false, err := none } := by
        simp only [ensure_cached_metrics]
        rw [if_pos h1]
      rw [hE] at hcomp
      exact absurd hcomp (by simp)
    · have hE : ensure_cached_metrics db station sha fileLines sy ey =
          { db := commitSeries db station sha series, computed := true,
            tookLock := true, err := none } := by
        simp only [ensure_cached_metrics]
        rw [if_neg h1, if_neg h1, hcm]
      rw [hE]
      dsimp only
      obtain ⟨st, hst⟩ : ∃ st, series = buildOut st sy ey ["TMIN", "TMAX"] := by
        unfold compute_means at hcm
        cases hf : List.foldlM (processLine sy ey ["TMIN", "TMAX"]) initState fileLines with
        | error e2 => rw [hf] at hcm; exact absurd hcm (by simp)
        | ok stt => rw [hf] at hcm; exact ⟨stt, (Except.ok.inj hcm).symm⟩
      subst hst
      unfold commitSeries
      refine foldMetrics_mem station sha (buildOut st sy ey ["TMIN", "TMAX"]) ALL_METRICS
        metric hm (by decide) ?_ p hp db
      intro m hm2
      rw [series_years st sy ey m hm2]
      exact yearsList_nodup sy ey

/-- C8 witness: populating an empty cache from an empty file commits the
placeholder yearly TMIN point of 2001 as a row under the run's hash. -/
theorem commit_all_or_nothing_witness :
    pointRow "ST" "H" "tmin_year" ⟨2001, none, 0, 365⟩ ∈
      (ensure_cached_metrics [] "ST" "H" [] 2001 2001).db := by
  refine commit_all_or_nothing.2 [] "ST" "H" [] 2001 2001
    [("tmin_year", [⟨2001, none, 0, 365⟩]),
     ("tmin_spring", [⟨2001, none, 0, 92⟩]),
     ("tmin_summer", [⟨2001, none, 0, 92⟩]),
     ("tmin_autumn", [⟨2001, none, 0, 91⟩]),
     ("tmin_winter", [⟨2001, none, 0, 90⟩]),
     ("tmax_year", [⟨2001, none, 0, 365⟩]),
     ("tmax_spring", [⟨2001, none, 0, 92⟩]),
     ("tmax_summer", [⟨2001, none, 0, 92⟩]),
     ("tmax_autumn", [⟨2001, none, 0, 91⟩]),
     ("tmax_winter", [⟨2001, none, 0, 90⟩])]
    "tmin_year" ⟨2001, none, 0, 365⟩
    (by with_unfolding_all rfl)
    (by with_unfolding_all rfl)
    (by with_unfolding_all rfl)
    (by decide)
    (by decide)

end Ghcn
